import Mathlib

/-!
Verification of the EnergyAI blockchain node against its specification.

The repository ships the HTTP layer (`src/node.js`), the budget monitor
(`src/config/budgetMonitor.js`) and the secret manager (`src/config/secrets.js`).
The ledger core (`src/core/Blockchain.js`, `src/core/Transaction.js`,
`src/core/Block.js`, `src/wallet/Wallet.js`) is referenced by `node.js` but is
not part of the published sources, so the core data model and operations below
are modelled from the specification (sections 3 and 4 of the spec).  The budget
monitor, secret manager and HTTP route handlers are embedded directly from the
JavaScript sources.
-/

namespace EnergyAI

/-- Modelled from the spec: the recognized transaction kinds
(`transfer, mining_reward, energy_tokenize, compute_allocate, carbon_purchase`). -/
inductive TxType where
  | transfer
  | mining_reward
  | energy_tokenize
  | compute_allocate
  | carbon_purchase
deriving DecidableEq

/-- Modelled from the spec: `metadata` is a mapping of auxiliary string fields. -/
def Metadata : Type := List (String × String)

instance : DecidableEq Metadata := by
  unfold Metadata
  infer_instance

instance {ε α : Type} [DecidableEq ε] [DecidableEq α] : DecidableEq (Except ε α) :=
  fun a b =>
    match a, b with
    | .ok x, .ok y => decidable_of_iff (x = y) (by simp)
    | .error x, .error y => decidable_of_iff (x = y) (by simp)
    | .ok _, .error _ => isFalse (by simp)
    | .error _, .ok _ => isFalse (by simp)

/-- Modelled from the spec: the canonical signing payload is the deterministic
tuple of all transaction fields except the signature itself. -/
structure CanonicalPayload where
  fromAddress : Option String
  toAddress : Option String
  amount : Int
  transactionType : TxType
  metadata : Metadata
  timestamp : Nat
deriving DecidableEq

/-- Modelled from the spec: a detached signature produced by the sender's
private key over the canonical payload.  With ideal cryptography a valid
signature is exactly the signer's public key together with the payload that
was signed, and verification checks the public key against `fromAddress`
and the payload against the transaction's recomputed canonical payload. -/
structure Sig where
  signerPub : String
  payload : CanonicalPayload
deriving DecidableEq

/-- Modelled from the spec: a ledger transaction (spec section 3).
`fromAddress` is `some systemSentinel` for system-issued transactions and a
holder address otherwise; a JS `null`/`undefined` field is `none`. -/
structure Transaction where
  fromAddress : Option String
  toAddress : Option String
  amount : Int
  transactionType : TxType
  metadata : Metadata
  timestamp : Nat
  signature : Option Sig
deriving DecidableEq

/-- Modelled from the spec: the sentinel originator of system-issued
transactions (mining rewards and tokenization mints). -/
def systemSentinel : String := "SYSTEM"

/-- A JS-falsy address field: `null`/`undefined` or the empty string. -/
def isMissing : Option String → Bool
  | none => true
  | some s => s = ""

/-- Modelled from the spec: a transaction is system-issued when it originates
from the system sentinel. -/
def Transaction.isSystemTx (tx : Transaction) : Bool :=
  tx.fromAddress = some systemSentinel

/-- The canonical payload of a transaction: every field except the signature. -/
def Transaction.canonicalPayload (tx : Transaction) : CanonicalPayload :=
  ⟨tx.fromAddress, tx.toAddress, tx.amount, tx.transactionType, tx.metadata, tx.timestamp⟩

/-- Modelled from the spec: the public key string derived from a private key;
the wallet address is this derived public key (a stable deterministic
function of the keypair). -/
def pubOf (priv : Nat) : String := "pk" ++ toString priv

/-- Modelled from the spec: `sign(privateKey)` computes the canonical payload
and attaches a signature; fails with `SigningError` if `fromAddress` does not
correspond to the signer's derived address. -/
def signTx (priv : Nat) (tx : Transaction) : Option Transaction :=
  if tx.fromAddress = some (pubOf priv) then
    some { tx with signature := some ⟨pubOf priv, tx.canonicalPayload⟩ }
  else
    none

/-- Modelled from the spec: `verifySignature()` recomputes the canonical
payload and checks the signature against the public key associated with
`fromAddress`; returns false (never throws) for a missing signature on a
non-system transaction, and true for unsigned system-issued transactions. -/
def Transaction.verifySignature (tx : Transaction) : Bool :=
  match tx.signature with
  | none => tx.isSystemTx
  | some s => some s.signerPub = tx.fromAddress && s.payload = tx.canonicalPayload

/-- Modelled from the spec: a sealed block (spec section 3). -/
structure Block where
  index : Nat
  timestamp : Nat
  transactions : List Transaction
  previousHash : String
  nonce : Nat
  difficulty : Nat
  hash : String
deriving DecidableEq

/-- Modelled from the spec: the field set a block digest is computed over:
`{index, timestamp, transactions, previousHash, nonce}` (the stored hash and
the difficulty are not part of the digested fields). -/
structure HashInput where
  index : Nat
  timestamp : Nat
  transactions : List Transaction
  previousHash : String
  nonce : Nat
deriving DecidableEq

/-- The digest of a block's own fields under hash function `f`
(`computeHash()` in the spec). -/
def blockDigest (f : HashInput → String) (b : Block) : String :=
  f ⟨b.index, b.timestamp, b.transactions, b.previousHash, b.nonce⟩

/-- The required run of leading zero characters for a given difficulty. -/
def zeroTarget (difficulty : Nat) : String :=
  String.mk (List.replicate difficulty '0')

/-- The proof-of-work condition: the hash starts with `difficulty` zeros. -/
def powOk (hash : String) (difficulty : Nat) : Bool :=
  hash.take difficulty = zeroTarget difficulty

/-- Modelled from the spec: `mine(difficulty)` increments the nonce and
recomputes the hash until the proof-of-work condition holds.  The reference
loop is unbounded; the embedding bounds it with fuel, `none` meaning the
search has not finished within the given number of attempts. -/
def mineAux (f : HashInput → String) (difficulty : Nat) : Block → Nat → Option Block
  | _, 0 => none
  | b, fuel + 1 =>
    if powOk (blockDigest f b) difficulty then some { b with hash := blockDigest f b }
    else mineAux f difficulty { b with nonce := b.nonce + 1 } fuel

/-- Modelled from the spec: chain state (spec section 3): the sealed blocks,
the pending pool, and the configured difficulty, mining reward and
energy-to-token conversion rate. -/
structure Chain where
  chain : List Block
  pendingTransactions : List Transaction
  difficulty : Nat
  miningReward : Int
  energyToTokenRate : Int
deriving DecidableEq

/-- Modelled from the spec: the fixed genesis block at index 0 with no
transactions and the all-zero previous-hash sentinel; its stored hash is its
own digest. -/
def genesisBlock (f : HashInput → String) : Block :=
  let b : Block :=
    { index := 0, timestamp := 0, transactions := [], previousHash := "0"
      nonce := 0, difficulty := 0, hash := "" }
  { b with hash := blockDigest f b }

/-- Modelled from the spec: a freshly constructed chain holds only the
genesis block and an empty pending pool. -/
def newChain (f : HashInput → String) (difficulty : Nat) (miningReward : Int)
    (energyToTokenRate : Int) : Chain :=
  { chain := [genesisBlock f], pendingTransactions := [], difficulty := difficulty
    miningReward := miningReward, energyToTokenRate := energyToTokenRate }

/-- The signed balance contribution of one transaction for one address:
`+amount` when the address is the recipient, `-amount` when it is the sender. -/
def txDelta (address : String) (tx : Transaction) : Int :=
  (if tx.toAddress = some address then tx.amount else 0)
    - (if tx.fromAddress = some address then tx.amount else 0)

/-- Modelled from the spec: `getBalanceOfAddress(address)` replays every
transaction in every sealed block (never the pending pool), subtracting
`amount` when the address is the sender and adding it when it is the
recipient. -/
def Chain.getBalanceOfAddress (c : Chain) (address : String) : Int :=
  c.chain.foldl
    (fun acc b => b.transactions.foldl (fun acc2 tx => acc2 + txDelta address tx) acc) 0

/-- All transactions of all sealed blocks, in chain order. -/
def Chain.sealedTransactions (c : Chain) : List Transaction :=
  (c.chain.map Block.transactions).flatten

/-- The balance exactly as worded by the spec: the sum over every sealed
transaction of `+amount` where `toAddress` matches minus the sum of `amount`
where `fromAddress` matches. -/
def Chain.balanceSpec (c : Chain) (address : String) : Int :=
  ((c.sealedTransactions.filter (fun tx => tx.toAddress = some address)).map
      Transaction.amount).sum
    - ((c.sealedTransactions.filter (fun tx => tx.fromAddress = some address)).map
        Transaction.amount).sum

/-- Modelled from the spec: the error taxonomy of section 7. -/
inductive ChainError where
  | validationError (msg : String)
  | invalidTransaction (msg : String)
  | signingError (msg : String)
  | miningError (msg : String)
deriving DecidableEq

/-- Modelled from the spec: the `Transaction` constructor fails with
`ValidationError` if `amount` is negative or `toAddress` is empty
(`transactionType` is always one of the recognized kinds here because the
embedding uses an enumerated type). -/
def mkTransaction (fromAddress toAddress : Option String) (amount : Int)
    (transactionType : TxType) (metadata : Metadata) (now : Nat) :
    Except ChainError Transaction :=
  if amount < 0 then
    .error (.validationError "Transaction amount cannot be negative")
  else if isMissing toAddress then
    .error (.validationError "Transaction must include a to address")
  else
    .ok { fromAddress := fromAddress, toAddress := toAddress, amount := amount
          transactionType := transactionType, metadata := metadata
          timestamp := now, signature := none }

/-- The transaction kinds whose admission is subject to the sender balance
check ("transfer-like types" in the spec); system-issued mint and reward
kinds are not. -/
def transferLike : TxType → Bool
  | .transfer => true
  | .compute_allocate => true
  | .carbon_purchase => true
  | _ => false

/-- The total amount already committed by `addr` in the pending pool. -/
def Chain.pendingSpend (c : Chain) (addr : Option String) : Int :=
  ((c.pendingTransactions.filter (fun tx => tx.fromAddress = addr)).map
    Transaction.amount).sum

/-- Modelled from the spec: `addTransaction(transaction)` fails with
`InvalidTransactionError` when `fromAddress`/`toAddress` is missing, when the
signature of a non-system transaction does not verify, or — for transfer-like
types — when the sender's confirmed balance is below the amount or below the
already-pending outgoing total plus the amount (the double-spend check of
spec section 8).  On success the transaction is appended to the pending pool
and the sealed chain is untouched. -/
def Chain.addTransaction (c : Chain) (tx : Transaction) : Except ChainError Chain :=
  if isMissing tx.fromAddress || isMissing tx.toAddress then
    .error (.invalidTransaction "Transaction must include from and to address")
  else if !tx.isSystemTx && !tx.verifySignature then
    .error (.invalidTransaction "Cannot add invalid transaction to chain")
  else if transferLike tx.transactionType then
    if c.getBalanceOfAddress (tx.fromAddress.getD "") < tx.amount then
      .error (.invalidTransaction "Not enough balance")
    else if c.getBalanceOfAddress (tx.fromAddress.getD "") <
        c.pendingSpend tx.fromAddress + tx.amount then
      .error (.invalidTransaction "Pending transactions for this wallet exceed its balance")
    else
      .ok { c with pendingTransactions := c.pendingTransactions ++ [tx] }
  else
    .ok { c with pendingTransactions := c.pendingTransactions ++ [tx] }

/-- Modelled from the spec: the system reward transaction appended by the
miner (`fromAddress` = system sentinel, `toAddress` = the miner, `amount` =
the chain's mining reward, type `mining_reward`, metadata = the supplied
energy data). -/
def rewardTransaction (minerAddress : String) (reward : Int) (energyData : Metadata)
    (now : Nat) : Transaction :=
  { fromAddress := some systemSentinel, toAddress := some minerAddress
    amount := reward, transactionType := .mining_reward, metadata := energyData
    timestamp := now, signature := none }

/-- Modelled from the spec: `minePendingTransactions(minerAddress, energyData)`
builds a block from the pending snapshot plus one reward transaction, links it
to the last block's hash, seals it by proof-of-work and appends it, clearing
the pool.  It fails with `MiningError` only when the chain is not initialized.
The outer `Option` is the fuel bound on the unbounded sealing loop: `none`
means the search has not finished within `fuel` attempts. -/
def Chain.minePendingTransactions (f : HashInput → String) (c : Chain)
    (minerAddress : String) (energyData : Metadata) (now fuel : Nat) :
    Option (Except ChainError Chain) :=
  match c.chain.getLast? with
  | none => some (.error (.miningError "Chain is not initialized"))
  | some last =>
    let txs := c.pendingTransactions ++ [rewardTransaction minerAddress c.miningReward energyData now]
    let b0 : Block :=
      { index := c.chain.length, timestamp := now, transactions := txs
        previousHash := last.hash, nonce := 0, difficulty := c.difficulty, hash := "" }
    match mineAux f c.difficulty b0 fuel with
    | none => none
    | some b => some (.ok { c with chain := c.chain ++ [b], pendingTransactions := [] })

/-- The three per-block validity checks: the stored hash equals the recomputed
digest, `previousHash` equals the prior block's hash, and the stored hash
satisfies the proof-of-work condition for the block's recorded difficulty. -/
def blockOk (f : HashInput → String) (prev cur : Block) : Bool :=
  cur.hash = blockDigest f cur && cur.previousHash = prev.hash
    && powOk cur.hash cur.difficulty

/-- Runs the per-block checks along a list of blocks, threading the
predecessor. -/
def validFrom (f : HashInput → String) : Block → List Block → Bool
  | _, [] => true
  | prev, cur :: rest => blockOk f prev cur && validFrom f cur rest

/-- Modelled from the spec: `isChainValid()` checks every block from index 1
onward against its recomputed digest, its predecessor's hash and the
proof-of-work condition. -/
def Chain.isChainValid (f : HashInput → String) (c : Chain) : Bool :=
  match c.chain with
  | [] => true
  | g :: rest => validFrom f g rest

/-- Modelled from the spec: `tokenizeEnergy(providerAddress, energyAmount,
energySource)` fails with `ValidationError` when `energyAmount <= 0` and
otherwise admits a system-issued `energy_tokenize` transaction crediting the
provider with `energyAmount * energyToTokenRate` tokens, with metadata
capturing the energy source; it returns the token amount together with the
updated chain. -/
def Chain.tokenizeEnergy (c : Chain) (providerAddress : Option String)
    (energyAmount : Int) (energySource : String) (now : Nat) :
    Except ChainError (Chain × Int) :=
  if energyAmount ≤ 0 then
    .error (.validationError "Energy amount must be positive")
  else
    match mkTransaction (some systemSentinel) providerAddress
        (energyAmount * c.energyToTokenRate) .energy_tokenize
        [("energySource", energySource)] now with
    | .error e => .error e
    | .ok tx =>
      match c.addTransaction tx with
      | .error e => .error e
      | .ok c' => .ok (c', energyAmount * c.energyToTokenRate)

/-- One step of the leaderboard accumulation: credit `amt` to `addr` in an
association list of running totals. -/
def addTotal (addr : String) (amt : Int) : List (String × Int) → List (String × Int)
  | [] => [(addr, amt)]
  | (a, t) :: rest =>
    if a = addr then (a, t + amt) :: rest else (a, t) :: addTotal addr amt rest

/-- Modelled from the spec: the per-provider totals of all sealed
`energy_tokenize` transactions (the provider is the credited `toAddress`,
consistently with `tokenizeEnergy`). -/
def Chain.energyTotals (c : Chain) : List (String × Int) :=
  c.sealedTransactions.foldl
    (fun acc tx =>
      if tx.transactionType = .energy_tokenize then
        match tx.toAddress with
        | some a => addTotal a tx.amount acc
        | none => acc
      else acc) []

/-- Insert a provider total into a list sorted by descending total. -/
def insertDesc (x : String × Int) : List (String × Int) → List (String × Int)
  | [] => [x]
  | y :: rest => if y.2 ≤ x.2 then x :: y :: rest else y :: insertDesc x rest

/-- Sort provider totals by descending total. -/
def sortDesc : List (String × Int) → List (String × Int)
  | [] => []
  | x :: rest => insertDesc x (sortDesc rest)

/-- Modelled from the spec: `getEnergyLeaderboard()` ranks the per-provider
tokenization totals in descending order. -/
def Chain.getEnergyLeaderboard (c : Chain) : List (String × Int) :=
  sortDesc c.energyTotals

/-- Budget monitor state, from `src/config/budgetMonitor.js` (spending
counters, limits, alert threshold, shutdown flag and the emitted alert keys;
the wall-clock reset dates are not needed by the verified properties). -/
structure BudgetMonitor where
  maxDailySpend : Rat
  maxMonthlySpend : Rat
  alertThreshold : Rat
  dailySpend : Rat
  monthlySpend : Rat
  isShutdown : Bool
  alerts : List String
deriving DecidableEq

/-- `BudgetMonitor.sendAlert`: push a deduplicated `period-floorPercentage`
alert key. -/
def BudgetMonitor.sendAlert (bm : BudgetMonitor) (period : String) (percentage : Rat) :
    BudgetMonitor :=
  let alertKey := period ++ "-" ++ toString percentage.floor
  if alertKey ∈ bm.alerts then bm else { bm with alerts := bm.alerts ++ [alertKey] }

/-- `BudgetMonitor.triggerShutdown`: set the shutdown flag (idempotent). -/
def BudgetMonitor.triggerShutdown (bm : BudgetMonitor) : BudgetMonitor :=
  if bm.isShutdown then bm else { bm with isShutdown := true }

/-- `BudgetMonitor.checkBudgets`: shut down at 100% of the daily or monthly
limit, alert at the configured threshold. -/
def BudgetMonitor.checkBudgets (bm : BudgetMonitor) : BudgetMonitor :=
  let dailyPercentage := bm.dailySpend / bm.maxDailySpend * 100
  let monthlyPercentage := bm.monthlySpend / bm.maxMonthlySpend * 100
  let bm1 :=
    if dailyPercentage ≥ 100 then bm.triggerShutdown
    else if dailyPercentage ≥ bm.alertThreshold then bm.sendAlert "daily" dailyPercentage
    else bm
  if monthlyPercentage ≥ 100 then bm1.triggerShutdown
  else if monthlyPercentage ≥ bm1.alertThreshold then bm1.sendAlert "monthly" monthlyPercentage
  else bm1

/-- `BudgetMonitor.recordCost`: throw (first component) without touching the
counters when already shut down, otherwise add the cost to both counters and
re-check the budgets. -/
def BudgetMonitor.recordCost (bm : BudgetMonitor) (amount : Rat) (_service : String) :
    Option String × BudgetMonitor :=
  if bm.isShutdown then
    (some "Service shutdown: Budget limit exceeded", bm)
  else
    (none,
      BudgetMonitor.checkBudgets
        { bm with dailySpend := bm.dailySpend + amount
                  monthlySpend := bm.monthlySpend + amount })

/-- `BudgetMonitor.resetShutdown`: manually clear the shutdown flag. -/
def BudgetMonitor.resetShutdown (bm : BudgetMonitor) : BudgetMonitor :=
  { bm with isShutdown := false }

/-- `BudgetMonitor.estimateCost`: fixed cost table times a multiplier. -/
def BudgetMonitor.estimateCost (operation : String) (multiplier : Rat) : Rat :=
  let baseCost : Rat :=
    if operation = "api_call" then 1 / 10000
    else if operation = "compute_hour" then 1 / 10
    else if operation = "storage_gb_month" then 1 / 50
    else if operation = "network_gb" then 1 / 100
    else if operation = "transaction" then 1 / 100000
    else if operation = "mining" then 1 / 20
    else 0
  baseCost * multiplier

/-- Secret provider selection, from `src/config/secrets.js`. -/
inductive SecretProvider where
  | gcp
  | aws
  | azure
  | env
deriving DecidableEq

/-- A cached secret value with the time it was stored. -/
structure CacheEntry where
  value : String
  timestamp : Nat
deriving DecidableEq

/-- Secret manager state, from `src/config/secrets.js`: the configured
provider, the secret cache and its timeout (5 minutes in milliseconds). -/
structure SecretManager where
  provider : SecretProvider
  cache : List (String × CacheEntry)
  cacheTimeout : Nat
deriving DecidableEq

/-- `Map.get` on the embedded cache. -/
def cacheGet (cache : List (String × CacheEntry)) (name : String) : Option CacheEntry :=
  match cache.find? (fun kv => kv.1 = name) with
  | some kv => some kv.2
  | none => none

/-- `Map.set` on the embedded cache: replace or insert. -/
def cacheSet (cache : List (String × CacheEntry)) (name : String) (e : CacheEntry) :
    List (String × CacheEntry) :=
  match cache with
  | [] => [(name, e)]
  | kv :: rest => if kv.1 = name then (name, e) :: rest else kv :: cacheSet rest name e

/-- The provider dispatch of `getSecret`'s `try` block: `process.env`
(`envMap`, with JS `||` falling back to the default on unset or empty
variables) under the `env` provider, and the cloud `providerLookup` — whose
failure propagates — otherwise. -/
def SecretManager.fetchOutcome (sm : SecretManager) (envMap : String → Option String)
    (providerLookup : String → Except String String)
    (secretName : String) (defaultValue : Option String) :
    Except String (Option String) :=
  match sm.provider with
  | .env =>
    .ok (match envMap secretName with
         | some v => if v = "" then defaultValue else some v
         | none => defaultValue)
  | _ => (providerLookup secretName).map some

/-- The body of the `try` block of `getSecret` together with its `catch`:
the provider dispatch, followed by truthy-value (non-null, non-empty)
caching; a caught failure yields the default with the state untouched. -/
def SecretManager.fetchSecret (sm : SecretManager) (envMap : String → Option String)
    (providerLookup : String → Except String String) (now : Nat)
    (secretName : String) (defaultValue : Option String) :
    Option String × SecretManager :=
  match sm.fetchOutcome envMap providerLookup secretName defaultValue with
  | .error _ => (defaultValue, sm)
  | .ok secretValue =>
    match secretValue with
    | some v =>
      if v = "" then (secretValue, sm)
      else (secretValue, { sm with cache := cacheSet sm.cache secretName ⟨v, now⟩ })
    | none => (secretValue, sm)

/-- `SecretManager.getSecret(secretName, defaultValue)`, from
`src/config/secrets.js`.  A fresh cache entry is returned as is; otherwise the
value is fetched through `fetchSecret` and cached when truthy.  Returns the
value and the updated state. -/
def SecretManager.getSecret (sm : SecretManager) (envMap : String → Option String)
    (providerLookup : String → Except String String) (now : Nat)
    (secretName : String) (defaultValue : Option String) :
    Option String × SecretManager :=
  match cacheGet sm.cache secretName with
  | some cached =>
    if now - cached.timestamp < sm.cacheTimeout then (some cached.value, sm)
    else sm.fetchSecret envMap providerLookup now secretName defaultValue
  | none => sm.fetchSecret envMap providerLookup now secretName defaultValue

/-- An HTTP response as produced by the route handlers in `src/node.js`:
status code, the `success` flag and the `error`/`message` fields. -/
structure HttpResponse where
  status : Nat
  success : Bool
  error : Option String
  message : Option String
deriving DecidableEq

/-- The `error.message` string surfaced by the HTTP layer for each core
error. -/
def errMessage : ChainError → String
  | .validationError m => m
  | .invalidTransaction m => m
  | .signingError m => m
  | .miningError m => m

/-- The transaction fields read from the body of `POST /transaction/submit`. -/
structure SubmitBody where
  fromAddress : Option String
  toAddress : Option String
  amount : Int
  transactionType : TxType
  metadata : Metadata
  signature : Option Sig
deriving DecidableEq

/-- The core calls performed by the `POST /transaction/submit` handler:
recreate the transaction from the body (the constructor may throw), attach the
submitted signature, and admit it. -/
def submitCore (c : Chain) (body : SubmitBody) (now : Nat) : Except ChainError Chain := do
  let tx ← mkTransaction body.fromAddress body.toAddress body.amount
    body.transactionType body.metadata now
  c.addTransaction { tx with signature := body.signature }

/-- `POST /transaction/submit`, from `src/node.js`: 200 on success, 400 with
the error message and an unchanged chain when the core throws. -/
def postTransactionSubmit (c : Chain) (body : SubmitBody) (now : Nat) :
    HttpResponse × Chain :=
  match submitCore c body now with
  | .error e =>
    ({ status := 400, success := false, error := some (errMessage e), message := none }, c)
  | .ok c' =>
    ({ status := 200, success := true, error := none
       message := some "Transaction added to pending pool" }, c')

/-- `POST /mine`, from `src/node.js`: mines for `minerAddress` (or the node
wallet address when absent); 200 on success, 400 with the error message and an
unchanged chain when the core throws, `none` while the bounded sealing search
has not finished. -/
def postMine (f : HashInput → String) (c : Chain) (minerAddress : Option String)
    (energyData : Metadata) (nodeAddr : String) (now fuel : Nat) :
    Option (HttpResponse × Chain) :=
  let address := minerAddress.getD nodeAddr
  match c.minePendingTransactions f address energyData now fuel with
  | none => none
  | some (.error e) =>
    some ({ status := 400, success := false, error := some (errMessage e), message := none }, c)
  | some (.ok c') =>
    some ({ status := 200, success := true, error := none
            message := some "Block mined successfully" }, c')

/-- `POST /energy/tokenize`, from `src/node.js`: tokenizes with the given
source (defaulting to `mixed`); 200 on success, 400 with the error message and
an unchanged chain when the core throws. -/
def postEnergyTokenize (c : Chain) (providerAddress : Option String)
    (energyAmount : Int) (energySource : Option String) (now : Nat) :
    HttpResponse × Chain :=
  match c.tokenizeEnergy providerAddress energyAmount (energySource.getD "mixed") now with
  | .error e =>
    ({ status := 400, success := false, error := some (errMessage e), message := none }, c)
  | .ok (c', _) =>
    ({ status := 200, success := true, error := none
       message := some "Energy tokenized successfully" }, c')

/-- The request forms reaching the node's routes that the verified properties
concern. -/
inductive Request where
  | submit (body : SubmitBody)
  | mine (minerAddress : Option String) (energyData : Metadata)
  | tokenize (providerAddress : Option String) (energyAmount : Int)
      (energySource : Option String)
  | balance (address : String)
  | validate
deriving DecidableEq

/-- The node's per-request mutable state: the chain and the (optionally
initialized) budget monitor. -/
structure NodeState where
  chain : Chain
  monitor : Option BudgetMonitor
deriving DecidableEq

/-- Route dispatch after the middleware, from `src/node.js`. -/
def dispatch (f : HashInput → String) (st : NodeState) (req : Request)
    (nodeAddr : String) (now fuel : Nat) : Option (HttpResponse × NodeState) :=
  match req with
  | .submit body =>
    let (r, c') := postTransactionSubmit st.chain body now
    some (r, { st with chain := c' })
  | .mine m en =>
    (postMine f st.chain m en nodeAddr now fuel).map
      (fun p => (p.1, { st with chain := p.2 }))
  | .tokenize p amt src =>
    let (r, c') := postEnergyTokenize st.chain p amt src now
    some (r, { st with chain := c' })
  | .balance _ =>
    some ({ status := 200, success := true, error := none, message := none }, st)
  | .validate =>
    some ({ status := 200, success := true, error := none, message := none }, st)

/-- The budget tracking middleware followed by route dispatch, from
`src/node.js`: when a monitor is initialized, an `api_call` cost is recorded
first, and a thrown budget error short-circuits the request with a 503
response before any chain operation runs. -/
def handleRequest (f : HashInput → String) (st : NodeState) (req : Request)
    (nodeAddr : String) (now fuel : Nat) : Option (HttpResponse × NodeState) :=
  match st.monitor with
  | some bm =>
    let cost := BudgetMonitor.estimateCost "api_call" 1
    match bm.recordCost cost "api" with
    | (some msg, bm') =>
      some ({ status := 503, success := false
              error := some "Service temporarily unavailable: Budget limit exceeded"
              message := some msg }, { st with monitor := some bm' })
    | (none, bm') => dispatch f { st with monitor := some bm' } req nodeAddr now fuel
  | none => dispatch f st req nodeAddr now fuel

/-- A concrete hash function used to instantiate the hash-parametric theorems
in witnesses: every digest starts with enough zeros for small difficulties. -/
def f0 : HashInput → String := fun _ => "00000000"

/-- A concrete sealed system credit of 100 units to address `pk1`. -/
def txCredit : Transaction :=
  { fromAddress := some systemSentinel, toAddress := some "pk1", amount := 100
    transactionType := .transfer, metadata := [], timestamp := 1, signature := none }

/-- A concrete chain with one sealed block crediting `pk1` with 100 units. -/
def cEx1 : Chain :=
  { chain :=
      [genesisBlock f0,
       { index := 1, timestamp := 2, transactions := [txCredit]
         previousHash := (genesisBlock f0).hash, nonce := 0, difficulty := 0
         hash := "00000000" }]
    pendingTransactions := [], difficulty := 0, miningReward := 100
    energyToTokenRate := 10 }

/-- An unsigned transfer whose sender address is the address derived from
private key 1. -/
def txU : Transaction :=
  { fromAddress := some (pubOf 1), toAddress := some "B", amount := 5
    transactionType := .transfer, metadata := [], timestamp := 3, signature := none }

/-- `txU` after signing with private key 1. -/
def txSigned : Transaction :=
  { txU with signature := some ⟨pubOf 1, txU.canonicalPayload⟩ }

/-- `txSigned` with its amount altered after signing. -/
def txAltered : Transaction :=
  { txSigned with amount := 6 }

/-- A non-system transaction carrying no signature. -/
def txUnsigned : Transaction :=
  { fromAddress := some "A", toAddress := some "B", amount := 5
    transactionType := .transfer, metadata := [], timestamp := 3, signature := none }

/-- The chain obtained by mining once for `M` on a fresh chain of difficulty
2, reward 100 and rate 10, under the `f0` hash. -/
def c3Ex : Chain :=
  { chain :=
      [genesisBlock f0,
       { index := 1, timestamp := 5
         transactions := [rewardTransaction "M" 100 [] 5]
         previousHash := "00000000", nonce := 0, difficulty := 2
         hash := "00000000" }]
    pendingTransactions := [], difficulty := 2, miningReward := 100
    energyToTokenRate := 10 }

/-- A sequence of `minePendingTransactions` calls, each op carrying a miner
address, energy data, a timestamp and a fuel bound; `none` when any call
fails or does not finish. -/
def mineSeq (f : HashInput → String) :
    Chain → List (String × Metadata × Nat × Nat) → Option Chain
  | c, [] => some c
  | c, op :: rest =>
    match c.minePendingTransactions f op.1 op.2.1 op.2.2.1 op.2.2.2 with
    | some (.ok c') => mineSeq f c' rest
    | _ => none

/-- A two-block chain whose second block stores a hash that is not the digest
of its own fields under `f0`. -/
def cBad : Chain :=
  { chain :=
      [genesisBlock f0,
       { index := 1, timestamp := 2, transactions := [txCredit]
         previousHash := (genesisBlock f0).hash, nonce := 0, difficulty := 0
         hash := "junk" }]
    pendingTransactions := [], difficulty := 0, miningReward := 100
    energyToTokenRate := 10 }

/-- Modelled from the spec: the system-issued mint transaction admitted by
`tokenizeEnergy`. -/
def mintTransaction (toAddr : Option String) (tokens : Int) (source : String)
    (now : Nat) : Transaction :=
  { fromAddress := some systemSentinel, toAddress := toAddr, amount := tokens
    transactionType := .energy_tokenize, metadata := [("energySource", source)]
    timestamp := now, signature := none }

/-- An unsigned 60-unit transfer from `pk1` (timestamp 7). -/
def txSpend1base : Transaction :=
  { fromAddress := some "pk1", toAddress := some "B", amount := 60
    transactionType := .transfer, metadata := [], timestamp := 7, signature := none }

/-- `txSpend1base` signed with private key 1. -/
def txSpend1 : Transaction :=
  { txSpend1base with signature := some ⟨"pk1", txSpend1base.canonicalPayload⟩ }

/-- An unsigned 60-unit transfer from `pk1` (timestamp 8). -/
def txSpend2base : Transaction :=
  { fromAddress := some "pk1", toAddress := some "B", amount := 60
    transactionType := .transfer, metadata := [], timestamp := 8, signature := none }

/-- `txSpend2base` signed with private key 1. -/
def txSpend2 : Transaction :=
  { txSpend2base with signature := some ⟨"pk1", txSpend2base.canonicalPayload⟩ }

/-- `cEx1` (confirmed balance 100 for `pk1`) with a pending 60-unit spend
from `pk1` already admitted. -/
def cC4 : Chain :=
  { cEx1 with pendingTransactions := [txSpend1] }

/-- The pending state after tokenizing 100 units for `P` at rate 10 on a
fresh chain under `f0`. -/
def c6Pend : Chain :=
  { chain := [genesisBlock f0]
    pendingTransactions := [mintTransaction (some "P") 1000 "renewable" 9]
    difficulty := 2, miningReward := 100, energyToTokenRate := 10 }

/-- `c6Pend` after mining once for `M` under `f0`. -/
def c6Ex : Chain :=
  { chain :=
      [genesisBlock f0,
       { index := 1, timestamp := 11
         transactions :=
           [mintTransaction (some "P") 1000 "renewable" 9,
            rewardTransaction "M" 100 [] 11]
         previousHash := "00000000", nonce := 0, difficulty := 2
         hash := "00000000" }]
    pendingTransactions := [], difficulty := 2, miningReward := 100
    energyToTokenRate := 10 }

/-- The value served from the cache by `getSecret`, when a sufficiently
fresh entry exists. -/
def cacheFreshValue (sm : SecretManager) (now : Nat) (name : String) : Option String :=
  match cacheGet sm.cache name with
  | some cached =>
    if now - cached.timestamp < sm.cacheTimeout then some cached.value else none
  | none => none

/-- A fresh budget monitor with a 10-dollar daily and 100-dollar monthly
limit and nothing spent. -/
def bm0 : BudgetMonitor :=
  { maxDailySpend := 10, maxMonthlySpend := 10, alertThreshold := 80
    dailySpend := 0, monthlySpend := 0, isShutdown := false, alerts := [] }

/-- `bm0` after recording a cost of 10: the daily limit is hit and the
monitor is shut down. -/
def bmAfter : BudgetMonitor :=
  { maxDailySpend := 10, maxMonthlySpend := 10, alertThreshold := 80
    dailySpend := 10, monthlySpend := 10, isShutdown := true, alerts := [] }

/-- A secret manager on the `env` provider with an empty cache. -/
def smEnv : SecretManager :=
  { provider := .env, cache := [], cacheTimeout := 300000 }

/-- `smEnv` after caching the value `val` for secret `Y` at time 0. -/
def smEnvCached : SecretManager :=
  { provider := .env, cache := [("Y", ⟨"val", 0⟩)], cacheTimeout := 300000 }

/-- A secret manager on the `gcp` provider with an empty cache. -/
def smGcp : SecretManager :=
  { provider := .gcp, cache := [], cacheTimeout := 300000 }

/-- An environment in which secret `X` is set to the empty string. -/
def env0 : String → Option String := fun n => if n = "X" then some "" else none

/-- An environment in which secret `Y` is set to `val`. -/
def env1 : String → Option String := fun n => if n = "Y" then some "val" else none

/-- An environment with no variables set. -/
def envNone : String → Option String := fun _ => none

/-- A provider lookup that always fails. -/
def lkFail : String → Except String String := fun _ => .error "provider unavailable"

lemma foldl_add_txDelta (address : String) (l : List Transaction) (a : Int) :
    l.foldl (fun acc tx => acc + txDelta address tx) a
      = a + (l.map (txDelta address)).sum := by
  induction l generalizing a with
  | nil => simp
  | cons tx rest ih =>
    simp only [List.foldl_cons, List.map_cons, List.sum_cons, ih]
    ring

lemma getBalance_eq_sum_deltas (c : Chain) (address : String) :
    c.getBalanceOfAddress address
      = (c.sealedTransactions.map (txDelta address)).sum := by
  unfold Chain.getBalanceOfAddress Chain.sealedTransactions
  induction c.chain using List.reverseRecOn with
  | nil => simp
  | append_singleton bs b ih =>
    simp only [List.foldl_append, List.foldl_cons, List.foldl_nil, ih,
      List.map_append, List.map_cons, List.map_nil, List.flatten_append,
      List.flatten_cons, List.flatten_nil, List.append_nil, List.map_append,
      List.sum_append]
    rw [foldl_add_txDelta]

lemma sum_deltas_eq_balanceSpec (address : String) (l : List Transaction) :
    (l.map (txDelta address)).sum
      = ((l.filter (fun tx => tx.toAddress = some address)).map
          Transaction.amount).sum
        - ((l.filter (fun tx => tx.fromAddress = some address)).map
            Transaction.amount).sum := by
  induction l with
  | nil => simp
  | cons tx rest ih =>
    simp only [List.map_cons, List.sum_cons, List.filter_cons, ih]
    unfold txDelta
    by_cases hto : tx.toAddress = some address <;>
      by_cases hfrom : tx.fromAddress = some address <;>
        simp [hto, hfrom] <;> ring

lemma map_txDelta_eq_zero (address : String) (l : List Transaction)
    (h : ∀ tx ∈ l, tx.fromAddress ≠ some address ∧ tx.toAddress ≠ some address) :
    (l.map (txDelta address)).sum = 0 := by
  induction l with
  | nil => simp
  | cons tx rest ih =>
    have htx := h tx (by simp)
    simp only [List.map_cons, List.sum_cons]
    rw [ih (fun t ht => h t (by simp [ht]))]
    unfold txDelta
    simp [htx.1, htx.2]

/-- Claim C1: for every chain state and address, `getBalanceOfAddress`
returns the sum over every transaction of every sealed block (pending
transactions excluded) of `+amount` where the address is the recipient and
`-amount` where it is the sender, and it returns exactly 0 for an address
that appears in no sealed transaction. -/
theorem claim_C1 (c : Chain) (address : String) :
    c.getBalanceOfAddress address = c.balanceSpec address ∧
    ((∀ tx ∈ c.sealedTransactions,
        tx.fromAddress ≠ some address ∧ tx.toAddress ≠ some address) →
      c.getBalanceOfAddress address = 0) := by
  constructor
  · rw [getBalance_eq_sum_deltas, Chain.balanceSpec,
      sum_deltas_eq_balanceSpec]
  · intro h
    rw [getBalance_eq_sum_deltas, map_txDelta_eq_zero address _ h]

theorem claim_C1_witness :
    cEx1.getBalanceOfAddress "nobody" = cEx1.balanceSpec "nobody" ∧
    cEx1.getBalanceOfAddress "nobody" = 0 :=
  ⟨(claim_C1 cEx1 "nobody").1, (claim_C1 cEx1 "nobody").2 (by decide)⟩

/-- Claim C5: signing with the keypair whose derived address is the
transaction's `fromAddress` makes `verifySignature` true; altering any signed
field afterwards makes it false; and a missing signature on a non-system
transaction yields false rather than an exception. -/
theorem claim_C5 :
    (∀ (priv : Nat) (tx : Transaction), tx.fromAddress = some (pubOf priv) →
      ∃ tx', signTx priv tx = some tx' ∧ tx'.verifySignature = true) ∧
    (∀ (priv : Nat) (tx tx' tx'' : Transaction), signTx priv tx = some tx' →
      tx''.signature = tx'.signature →
      (tx''.fromAddress ≠ tx'.fromAddress ∨ tx''.toAddress ≠ tx'.toAddress ∨
        tx''.amount ≠ tx'.amount ∨ tx''.transactionType ≠ tx'.transactionType ∨
        tx''.metadata ≠ tx'.metadata ∨ tx''.timestamp ≠ tx'.timestamp) →
      tx''.verifySignature = false) ∧
    (∀ tx : Transaction, tx.signature = none → tx.isSystemTx = false →
      tx.verifySignature = false) := by
  refine ⟨?_, ?_, ?_⟩
  · intro priv tx h
    refine ⟨{ tx with signature := some ⟨pubOf priv, tx.canonicalPayload⟩ }, ?_, ?_⟩
    · simp [signTx, h]
    · simp [Transaction.verifySignature, Transaction.canonicalPayload, h.symm]
  · intro priv tx tx' tx'' hsign hsig hdiff
    unfold signTx at hsign
    split at hsign
    case isFalse => exact absurd hsign (by simp)
    case isTrue haddr =>
      have htx' : tx' = { tx with signature := some ⟨pubOf priv, tx.canonicalPayload⟩ } :=
        (Option.some.inj hsign).symm
      subst htx'
      have hpay : tx''.canonicalPayload ≠ tx.canonicalPayload := by
        intro he
        unfold Transaction.canonicalPayload at he
        injection he with h1 h2 h3 h4 h5 h6
        simp only [ne_eq] at hdiff
        rcases hdiff with h | h | h | h | h | h <;> simp_all
      simp only [Transaction.verifySignature, hsig]
      simp
      exact fun _ he => hpay he.symm
  · intro tx hnone hsys
    simp [Transaction.verifySignature, hnone, hsys]

theorem claim_C5_witness :
    (∃ tx', signTx 1 txU = some tx' ∧ tx'.verifySignature = true) ∧
    txAltered.verifySignature = false ∧
    txUnsigned.verifySignature = false :=
  ⟨claim_C5.1 1 txU (by decide),
   claim_C5.2.1 1 txU txSigned txAltered (by decide) (by decide) (by decide),
   claim_C5.2.2 txUnsigned (by decide) (by decide)⟩

lemma mineAux_spec {f : HashInput → String} {d : Nat} :
    ∀ {b : Block} {fuel : Nat} {b' : Block}, mineAux f d b fuel = some b' →
      b'.index = b.index ∧ b'.timestamp = b.timestamp ∧
      b'.transactions = b.transactions ∧ b'.previousHash = b.previousHash ∧
      b'.difficulty = b.difficulty ∧ b'.hash = blockDigest f b' ∧
      powOk b'.hash d = true := by
  intro b fuel
  induction fuel generalizing b with
  | zero => intro b' h; exact absurd h (by simp [mineAux])
  | succ n ih =>
    intro b' h
    unfold mineAux at h
    split at h
    case isTrue hpow =>
      have hb' : b' = { b with hash := blockDigest f b } := (Option.some.inj h).symm
      subst hb'
      refine ⟨rfl, rfl, rfl, rfl, rfl, rfl, ?_⟩
      simpa [blockDigest] using hpow
    case isFalse hpow =>
      have := ih h
      simpa using this

lemma mine_appends {f : HashInput → String} {c : Chain} {miner : String}
    {energy : Metadata} {now fuel : Nat} {c' : Chain}
    (h : c.minePendingTransactions f miner energy now fuel = some (.ok c')) :
    ∃ last b, c.chain.getLast? = some last ∧
      c'.chain = c.chain ++ [b] ∧
      b.transactions =
        c.pendingTransactions ++ [rewardTransaction miner c.miningReward energy now] ∧
      b.previousHash = last.hash ∧
      b.difficulty = c.difficulty ∧
      b.hash = blockDigest f b ∧
      powOk b.hash c.difficulty = true ∧
      c'.pendingTransactions = [] ∧
      c'.difficulty = c.difficulty ∧ c'.miningReward = c.miningReward ∧
      c'.energyToTokenRate = c.energyToTokenRate := by
  unfold Chain.minePendingTransactions at h
  cases hl : c.chain.getLast? with
  | none => rw [hl] at h; exact absurd h (by simp)
  | some last =>
    rw [hl] at h
    simp only at h
    cases hm : mineAux f c.difficulty
        { index := c.chain.length, timestamp := now
          transactions := c.pendingTransactions ++
            [rewardTransaction miner c.miningReward energy now]
          previousHash := last.hash, nonce := 0, difficulty := c.difficulty
          hash := "" } fuel with
    | none => rw [hm] at h; exact absurd h (by simp)
    | some b =>
      rw [hm] at h
      have hc' : c' = { c with chain := c.chain ++ [b], pendingTransactions := [] } := by
        have := Option.some.inj h
        exact (Except.ok.inj this).symm
      obtain ⟨hidx, hts, htxs, hprev, hdiff, hhash, hpow⟩ := mineAux_spec hm
      subst hc'
      exact ⟨last, b, hl ▸ rfl, rfl, by simpa using htxs, by simpa using hprev,
        by simpa using hdiff, hhash, by simpa [hdiff] using hpow, rfl, rfl, rfl, rfl⟩

/-- Claim C3: a successful `minePendingTransactions` appends exactly one
sealed block holding the pending snapshot followed by the system reward
transaction, linked to the prior last block's hash, and clears the pool; on a
genesis chain with reward 100 a single mine with no pending transactions for
miner `M` yields length 2 and balance 100 for `M`. -/
theorem claim_C3 :
    (∀ (f : HashInput → String) (c : Chain) (miner : String) (energy : Metadata)
        (now fuel : Nat) (c' : Chain),
      c.minePendingTransactions f miner energy now fuel = some (.ok c') →
      ∃ last b, c.chain.getLast? = some last ∧
        c'.chain = c.chain ++ [b] ∧
        b.transactions =
          c.pendingTransactions ++ [rewardTransaction miner c.miningReward energy now] ∧
        b.previousHash = last.hash ∧
        b.hash = blockDigest f b ∧
        powOk b.hash c.difficulty = true ∧
        c'.pendingTransactions = []) ∧
    (∀ (f : HashInput → String) (d : Nat) (rate : Int) (now fuel : Nat) (c' : Chain),
      (newChain f d 100 rate).minePendingTransactions f "M" [] now fuel = some (.ok c') →
      c'.chain.length = 2 ∧ c'.getBalanceOfAddress "M" = 100) := by
  constructor
  · intro f c miner energy now fuel c' h
    obtain ⟨last, b, hl, hchain, htxs, hprev, hdiff, hhash, hpow, hpend, -⟩ :=
      mine_appends h
    exact ⟨last, b, hl, hchain, htxs, hprev, hhash, hpow, hpend⟩
  · intro f d rate now fuel c' h
    obtain ⟨last, b, hl, hchain, htxs, hprev, hdiff, hhash, hpow, hpend, -⟩ :=
      mine_appends h
    have hlen : c'.chain.length = 2 := by
      rw [hchain]; simp [newChain]
    refine ⟨hlen, ?_⟩
    rw [getBalance_eq_sum_deltas]
    have hsealed : c'.sealedTransactions =
        [rewardTransaction "M" 100 [] now] := by
      unfold Chain.sealedTransactions
      rw [hchain]
      simp [newChain, genesisBlock, htxs]
    rw [hsealed]
    simp [txDelta, rewardTransaction, systemSentinel]

theorem claim_C3_witness :
    c3Ex.chain.length = 2 ∧ c3Ex.getBalanceOfAddress "M" = 100 :=
  claim_C3.2 f0 2 10 5 1 c3Ex (by decide)

lemma validFrom_snoc {f : HashInput → String} :
    ∀ {p : Block} {l : List Block} {last b : Block},
      validFrom f p l = true → (p :: l).getLast? = some last →
      blockOk f last b = true → validFrom f p (l ++ [b]) = true := by
  intro p l
  induction l generalizing p with
  | nil =>
    intro last b hv hlast hb
    simp only [List.getLast?_singleton, Option.some.injEq] at hlast
    subst hlast
    simp [validFrom, hb]
  | cons x rest ih =>
    intro last b hv hlast hb
    simp only [validFrom, Bool.and_eq_true] at hv
    have hlast' : (x :: rest).getLast? = some last := by
      rwa [List.getLast?_cons_cons] at hlast
    simp only [List.cons_append, validFrom, Bool.and_eq_true]
    exact ⟨hv.1, ih hv.2 hlast' hb⟩

lemma validFrom_break {f : HashInput → String} :
    ∀ {p : Block} {l1 : List Block} {prev cur : Block} (l2 : List Block),
      (p :: l1).getLast? = some prev → blockOk f prev cur = false →
      validFrom f p (l1 ++ cur :: l2) = false := by
  intro p l1
  induction l1 generalizing p with
  | nil =>
    intro prev cur l2 hlast hbad
    simp only [List.getLast?_singleton, Option.some.injEq] at hlast
    subst hlast
    simp [validFrom, hbad]
  | cons x rest ih =>
    intro prev cur l2 hlast hbad
    have hlast' : (x :: rest).getLast? = some prev := by
      rwa [List.getLast?_cons_cons] at hlast
    simp only [List.cons_append, validFrom, List.append_eq]
    rw [ih l2 hlast' hbad]
    simp

lemma mine_preserves_valid {f : HashInput → String} {c : Chain} {miner : String}
    {energy : Metadata} {now fuel : Nat} {c' : Chain}
    (h : c.minePendingTransactions f miner energy now fuel = some (.ok c'))
    (hv : c.isChainValid f = true) : c'.isChainValid f = true := by
  obtain ⟨last, b, hl, hchain, htxs, hprev, hdiff, hhash, hpow, -⟩ := mine_appends h
  have hb : blockOk f last b = true := by
    unfold blockOk
    simp only [Bool.and_eq_true, decide_eq_true_eq]
    exact ⟨⟨hhash, hprev⟩, by rw [hdiff]; exact hpow⟩
  cases hcc : c.chain with
  | nil => rw [hcc] at hl; simp at hl
  | cons g rest =>
    unfold Chain.isChainValid at hv
    rw [hcc] at hv
    unfold Chain.isChainValid
    rw [hchain, hcc]
    simp only [List.cons_append]
    exact validFrom_snoc hv (by rw [← hcc, hl]) hb

lemma mineSeq_valid {f : HashInput → String} :
    ∀ (ops : List (String × Metadata × Nat × Nat)) (c c' : Chain),
      c.isChainValid f = true → mineSeq f c ops = some c' →
      c'.isChainValid f = true := by
  intro ops
  induction ops with
  | nil =>
    intro c c' hv h
    simp only [mineSeq, Option.some.injEq] at h
    exact h ▸ hv
  | cons op rest ih =>
    intro c c' hv h
    unfold mineSeq at h
    cases hm : c.minePendingTransactions f op.1 op.2.1 op.2.2.1 op.2.2.2 with
    | none => rw [hm] at h; exact absurd h (by simp)
    | some r =>
      cases r with
      | error e => rw [hm] at h; exact absurd h (by simp)
      | ok c1 =>
        rw [hm] at h
        exact ih c1 c' (mine_preserves_valid hm hv) h

/-- Claim C2: every chain reached from a fresh genesis chain by a sequence of
successful `minePendingTransactions` calls satisfies `isChainValid`; and any
chain in which some non-genesis block fails one of the three checks — stored
hash differs from the recomputed digest, `previousHash` differs from the
prior block's hash, or the stored hash misses the proof-of-work target for
the recorded difficulty — fails `isChainValid`. -/
theorem claim_C2 :
    (∀ (f : HashInput → String) (d : Nat) (r rate : Int)
        (ops : List (String × Metadata × Nat × Nat)) (c : Chain),
      mineSeq f (newChain f d r rate) ops = some c → c.isChainValid f = true) ∧
    (∀ (f : HashInput → String) (c : Chain) (l1 : List Block) (prev cur : Block)
        (l2 : List Block),
      c.chain = l1 ++ prev :: cur :: l2 →
      (cur.hash ≠ blockDigest f cur ∨ cur.previousHash ≠ prev.hash ∨
        powOk cur.hash cur.difficulty = false) →
      c.isChainValid f = false) := by
  constructor
  · intro f d r rate ops c h
    refine mineSeq_valid ops (newChain f d r rate) c ?_ h
    simp [Chain.isChainValid, newChain, validFrom]
  · intro f c l1 prev cur l2 hchain hbad
    have hb : blockOk f prev cur = false := by
      unfold blockOk
      rcases hbad with h | h | h
      · simp [h]
      · simp [h]
      · simp [h]
    cases l1 with
    | nil =>
      unfold Chain.isChainValid
      rw [hchain]
      simp [validFrom, hb]
    | cons g l1' =>
      have hred : c.isChainValid f = validFrom f g ((l1' ++ [prev]) ++ cur :: l2) := by
        unfold Chain.isChainValid
        rw [hchain]
        simp
      rw [hred]
      refine validFrom_break l2 ?_ hb
      rw [show g :: (l1' ++ [prev]) = (g :: l1') ++ [prev] by simp,
        List.getLast?_concat]

theorem claim_C2_witness :
    c3Ex.isChainValid f0 = true ∧ cBad.isChainValid f0 = false :=
  ⟨claim_C2.1 f0 2 100 10 [("M", [], 5, 1)] c3Ex (by decide),
   claim_C2.2 f0 cBad [] (genesisBlock f0)
     { index := 1, timestamp := 2, transactions := [txCredit]
       previousHash := (genesisBlock f0).hash, nonce := 0, difficulty := 0
       hash := "junk" } [] (by decide) (Or.inl (by decide))⟩

lemma addTransaction_ok_shape {c : Chain} {tx : Transaction} {c' : Chain}
    (h : c.addTransaction tx = .ok c') :
    c' = { c with pendingTransactions := c.pendingTransactions ++ [tx] } := by
  unfold Chain.addTransaction at h
  split_ifs at h <;> first
    | exact (Except.ok.inj h).symm
    | exact absurd h (by simp)

/-- Claim C4 (amended): `addTransaction` fails with `InvalidTransactionError`
exactly when an address is missing, a non-system signature does not verify,
or — for transfer-like types — the confirmed balance is below the amount or
below the pending outgoing total plus the amount; under the last rule two
admitted transactions whose summed amount exceeds the sender's confirmed
balance see the second rejected; a successful call only appends to the
pending pool. -/
theorem claim_C4 :
    (∀ (c : Chain) (tx : Transaction),
      (∃ m, c.addTransaction tx = .error (.invalidTransaction m)) ∨
        c.addTransaction tx =
          .ok { c with pendingTransactions := c.pendingTransactions ++ [tx] }) ∧
    (∀ (c : Chain) (tx : Transaction),
      (∃ m, c.addTransaction tx = .error (.invalidTransaction m)) ↔
        (isMissing tx.fromAddress = true ∨ isMissing tx.toAddress = true ∨
          (tx.isSystemTx = false ∧ tx.verifySignature = false) ∨
          (transferLike tx.transactionType = true ∧
            (c.getBalanceOfAddress (tx.fromAddress.getD "") < tx.amount ∨
              c.getBalanceOfAddress (tx.fromAddress.getD "") <
                c.pendingSpend tx.fromAddress + tx.amount)))) ∧
    (∀ (c : Chain) (tx1 tx2 : Transaction) (c1 : Chain),
      c.addTransaction tx1 = .ok c1 →
      tx1.fromAddress = tx2.fromAddress →
      transferLike tx2.transactionType = true →
      0 ≤ c.pendingSpend tx2.fromAddress →
      c.getBalanceOfAddress (tx2.fromAddress.getD "") < tx1.amount + tx2.amount →
      ∃ m, c1.addTransaction tx2 = .error (.invalidTransaction m)) := by
  refine ⟨?_, ?_, ?_⟩
  · intro c tx
    unfold Chain.addTransaction
    split_ifs <;> first
      | exact Or.inl ⟨_, rfl⟩
      | exact Or.inr rfl
  · intro c tx
    unfold Chain.addTransaction
    split_ifs with h1 h2 h3 h4 h5
    · refine iff_of_true ⟨_, rfl⟩ ?_
      rcases (Bool.or_eq_true _ _).mp h1 with h | h
      · exact Or.inl h
      · exact Or.inr (Or.inl h)
    · refine iff_of_true ⟨_, rfl⟩ ?_
      simp only [Bool.and_eq_true, Bool.not_eq_true'] at h2
      exact Or.inr (Or.inr (Or.inl h2))
    · exact iff_of_true ⟨_, rfl⟩ (Or.inr (Or.inr (Or.inr ⟨h3, Or.inl h4⟩)))
    · exact iff_of_true ⟨_, rfl⟩ (Or.inr (Or.inr (Or.inr ⟨h3, Or.inr h5⟩)))
    · refine iff_of_false (by rintro ⟨m, hm⟩; exact absurd hm (by simp)) ?_
      simp only [Bool.or_eq_true, Bool.not_eq_true] at h1
      push_neg at h1
      simp only [Bool.and_eq_true, Bool.not_eq_true'] at h2
      rintro (h | h | h | ⟨-, hb | hb⟩)
      · exact absurd h (by simp [h1.1])
      · exact absurd h (by simp [h1.2])
      · exact h2 h
      · exact h4 hb
      · exact h5 hb
    · refine iff_of_false (by rintro ⟨m, hm⟩; exact absurd hm (by simp)) ?_
      simp only [Bool.or_eq_true, Bool.not_eq_true] at h1
      push_neg at h1
      simp only [Bool.and_eq_true, Bool.not_eq_true'] at h2
      rintro (h | h | h | ⟨ht, -⟩)
      · exact absurd h (by simp [h1.1])
      · exact absurd h (by simp [h1.2])
      · exact h2 h
      · exact absurd ht (by simp [h3])
  · intro c tx1 tx2 c1 hok hfrom htl hpos hsum
    have hc1 : c1 = { c with pendingTransactions := c.pendingTransactions ++ [tx1] } :=
      addTransaction_ok_shape hok
    subst hc1
    have hbal : Chain.getBalanceOfAddress
        { c with pendingTransactions := c.pendingTransactions ++ [tx1] }
          (tx2.fromAddress.getD "")
        = c.getBalanceOfAddress (tx2.fromAddress.getD "") := rfl
    have hps : Chain.pendingSpend
        { c with pendingTransactions := c.pendingTransactions ++ [tx1] }
          tx2.fromAddress
        = c.pendingSpend tx2.fromAddress + tx1.amount := by
      unfold Chain.pendingSpend
      simp [List.filter_append, hfrom]
    by_cases m1 : (isMissing tx2.fromAddress || isMissing tx2.toAddress) = true
    · exact ⟨_, by unfold Chain.addTransaction; rw [if_pos m1]⟩
    · by_cases m2 : (!tx2.isSystemTx && !tx2.verifySignature) = true
      · exact ⟨_, by unfold Chain.addTransaction; rw [if_neg m1, if_pos m2]⟩
      · by_cases m4 : Chain.getBalanceOfAddress
            { c with pendingTransactions := c.pendingTransactions ++ [tx1] }
              (tx2.fromAddress.getD "") < tx2.amount
        · exact ⟨_, by
            unfold Chain.addTransaction
            rw [if_neg m1, if_neg m2, if_pos htl, if_pos m4]⟩
        · have m5 : Chain.getBalanceOfAddress
              { c with pendingTransactions := c.pendingTransactions ++ [tx1] }
                (tx2.fromAddress.getD "") <
              Chain.pendingSpend
                { c with pendingTransactions := c.pendingTransactions ++ [tx1] }
                  tx2.fromAddress + tx2.amount := by
            rw [hbal, hps]
            linarith
          exact ⟨_, by
            unfold Chain.addTransaction
            rw [if_neg m1, if_neg m2, if_pos htl, if_neg m4, if_pos m5]⟩

theorem claim_C4_counterexample :
    cC4.addTransaction txSpend2 =
      .error (.invalidTransaction
        "Pending transactions for this wallet exceed its balance") ∧
    isMissing txSpend2.fromAddress = false ∧
    isMissing txSpend2.toAddress = false ∧
    txSpend2.verifySignature = true ∧
    ¬(cC4.getBalanceOfAddress (txSpend2.fromAddress.getD "") < txSpend2.amount) := by
  decide

theorem claim_C4_witness :
    cEx1.addTransaction txSpend1 = .ok cC4 ∧
    (∃ m, cC4.addTransaction txSpend2 = .error (.invalidTransaction m)) :=
  ⟨by decide,
   claim_C4.2.2 cEx1 txSpend1 txSpend2 cC4 (by decide) (by decide) (by decide)
     (by decide) (by decide)⟩

lemma tokenizeEnergy_pos_eq (c : Chain) (p : Option String) (amt : Int)
    (src : String) (now : Nat)
    (hamt : 0 < amt) (hp : isMissing p = false) (hrate : 0 ≤ c.energyToTokenRate) :
    c.tokenizeEnergy p amt src now =
      .ok ({ c with pendingTransactions :=
              c.pendingTransactions ++
                [mintTransaction p (amt * c.energyToTokenRate) src now] },
           amt * c.energyToTokenRate) := by
  have h1 : ¬ amt ≤ 0 := not_le.mpr hamt
  have h2 : ¬ amt * c.energyToTokenRate < 0 := not_lt.mpr (mul_nonneg hamt.le hrate)
  have hmk : mkTransaction (some systemSentinel) p (amt * c.energyToTokenRate)
      .energy_tokenize [("energySource", src)] now =
      .ok (mintTransaction p (amt * c.energyToTokenRate) src now) := by
    unfold mkTransaction mintTransaction
    rw [if_neg h2, if_neg (by simp [hp])]
  have hadd : c.addTransaction (mintTransaction p (amt * c.energyToTokenRate) src now) =
      .ok { c with pendingTransactions :=
        c.pendingTransactions ++ [mintTransaction p (amt * c.energyToTokenRate) src now] } := by
    unfold Chain.addTransaction
    rw [if_neg (by simp [isMissing, systemSentinel, mintTransaction]; exact hp),
      if_neg (by simp [Transaction.isSystemTx, mintTransaction]),
      if_neg (by simp [transferLike, mintTransaction])]
  unfold Chain.tokenizeEnergy
  rw [if_neg h1, hmk]
  simp [hadd]

lemma mem_insertDesc {x a : String × Int} :
    ∀ {l : List (String × Int)}, a ∈ insertDesc x l ↔ a = x ∨ a ∈ l := by
  intro l
  induction l with
  | nil => simp [insertDesc]
  | cons y rest ih =>
    unfold insertDesc
    split_ifs with h
    · simp
    · simp only [List.mem_cons, ih]
      tauto

lemma mem_sortDesc {a : String × Int} :
    ∀ {l : List (String × Int)}, a ∈ sortDesc l ↔ a ∈ l := by
  intro l
  induction l with
  | nil => simp [sortDesc]
  | cons y rest ih =>
    unfold sortDesc
    rw [mem_insertDesc]
    simp [ih]

/-- Claim C6 (amended): `tokenizeEnergy` fails with `ValidationError` when
`energyAmount <= 0` or when the provider address is empty or absent;
otherwise (with a nonnegative `energyToTokenRate`) it admits a pending
system-issued `energy_tokenize` transaction crediting the provider with
`energyAmount * energyToTokenRate` tokens and metadata capturing the source,
and on a fresh chain, mining that transaction raises the provider's balance
by that amount and lists the provider on the energy leaderboard with that
total. -/
theorem claim_C6 :
    (∀ (c : Chain) (p : Option String) (amt : Int) (src : String) (now : Nat),
      amt ≤ 0 →
      c.tokenizeEnergy p amt src now =
        .error (.validationError "Energy amount must be positive")) ∧
    (∀ (c : Chain) (p : Option String) (amt : Int) (src : String) (now : Nat),
      0 < amt → isMissing p = false → 0 ≤ c.energyToTokenRate →
      c.tokenizeEnergy p amt src now =
        .ok ({ c with pendingTransactions :=
                c.pendingTransactions ++
                  [mintTransaction p (amt * c.energyToTokenRate) src now] },
             amt * c.energyToTokenRate)) ∧
    (∀ (f : HashInput → String) (d : Nat) (reward rate amt : Int) (src : String)
        (now now2 fuel : Nat) (miner : String) (c1 c2 : Chain) (tokens : Int),
      0 < amt → 0 ≤ rate → miner ≠ "P" →
      (newChain f d reward rate).tokenizeEnergy (some "P") amt src now =
        .ok (c1, tokens) →
      c1.minePendingTransactions f miner [] now2 fuel = some (.ok c2) →
      c2.getBalanceOfAddress "P" = amt * rate ∧
        ("P", amt * rate) ∈ c2.getEnergyLeaderboard) := by
  refine ⟨?_, ?_, ?_⟩
  · intro c p amt src now h
    unfold Chain.tokenizeEnergy
    rw [if_pos h]
  · intro c p amt src now hamt hp hrate
    exact tokenizeEnergy_pos_eq c p amt src now hamt hp hrate
  · intro f d reward rate amt src now now2 fuel miner c1 c2 tokens hamt hrate hm htok hmine
    have heq := tokenizeEnergy_pos_eq (newChain f d reward rate) (some "P")
      amt src now hamt (by simp [isMissing]) hrate
    have hpair := Except.ok.inj (htok.symm.trans heq)
    have hc1 : c1 = { newChain f d reward rate with pendingTransactions :=
        (newChain f d reward rate).pendingTransactions ++
          [mintTransaction (some "P") (amt * rate) src now] } :=
      congrArg Prod.fst hpair
    obtain ⟨last, b, hl, hchain, htxs, hprev, hdiff, hhash, hpow, hpend, -⟩ :=
      mine_appends hmine
    have hseal : c2.sealedTransactions =
        [mintTransaction (some "P") (amt * rate) src now,
         rewardTransaction miner reward [] now2] := by
      unfold Chain.sealedTransactions
      rw [hchain, hc1]
      simp only [hc1, newChain] at htxs
      simp [newChain, genesisBlock, htxs]
    constructor
    · rw [getBalance_eq_sum_deltas, hseal]
      simp [txDelta, mintTransaction, rewardTransaction, systemSentinel,
        Ne.symm hm, hm]
    · have htot : c2.energyTotals = [("P", amt * rate)] := by
        unfold Chain.energyTotals
        rw [hseal]
        simp [mintTransaction, rewardTransaction, addTotal]
      rw [Chain.getEnergyLeaderboard, htot]
      simp [sortDesc, insertDesc]

theorem claim_C6_counterexample :
    (0 : Int) < 5 ∧
    cEx1.tokenizeEnergy (some "") 5 "solar" 9 =
      .error (.validationError "Transaction must include a to address") := by
  decide

theorem claim_C6_witness :
    cEx1.tokenizeEnergy (some "P") 0 "solar" 9 =
      .error (.validationError "Energy amount must be positive") ∧
    (newChain f0 2 100 10).tokenizeEnergy (some "P") 100 "renewable" 9 =
      .ok (c6Pend, 1000) ∧
    c6Ex.getBalanceOfAddress "P" = 100 * 10 ∧
    ("P", (100 : Int) * 10) ∈ c6Ex.getEnergyLeaderboard := by
  refine ⟨claim_C6.1 cEx1 (some "P") 0 "solar" 9 (by decide), ?_, ?_⟩
  · have h := claim_C6.2.1 (newChain f0 2 100 10) (some "P") 100 "renewable" 9
      (by decide) (by decide) (by decide)
    exact h.trans (by decide)
  · exact claim_C6.2.2 f0 2 100 10 100 "renewable" 9 11 1 "M" c6Pend c6Ex 1000
      (by decide) (by decide) (by decide) (by decide) (by decide)

/-- Claim C7: on each mutating endpoint — transaction submission, mining and
energy tokenization — a core error is surfaced as a 400 response with
`success:false` and the error message, and the chain state is returned
unchanged. -/
theorem claim_C7 :
    (∀ (c : Chain) (body : SubmitBody) (now : Nat) (e : ChainError),
      submitCore c body now = .error e →
      postTransactionSubmit c body now =
        ({ status := 400, success := false, error := some (errMessage e)
           message := none }, c)) ∧
    (∀ (f : HashInput → String) (c : Chain) (m : Option String) (en : Metadata)
        (nodeAddr : String) (now fuel : Nat) (e : ChainError),
      c.minePendingTransactions f (m.getD nodeAddr) en now fuel = some (.error e) →
      postMine f c m en nodeAddr now fuel =
        some ({ status := 400, success := false, error := some (errMessage e)
                message := none }, c)) ∧
    (∀ (c : Chain) (p : Option String) (amt : Int) (src : Option String)
        (now : Nat) (e : ChainError),
      c.tokenizeEnergy p amt (src.getD "mixed") now = .error e →
      postEnergyTokenize c p amt src now =
        ({ status := 400, success := false, error := some (errMessage e)
           message := none }, c)) := by
  refine ⟨?_, ?_, ?_⟩
  · intro c body now e h
    unfold postTransactionSubmit
    rw [h]
  · intro f c m en nodeAddr now fuel e h
    unfold postMine
    simp only [h]
  · intro c p amt src now e h
    unfold postEnergyTokenize
    rw [h]

/-- A chain whose block list is empty: mining on it throws `MiningError`. -/
def cEmpty : Chain :=
  { chain := [], pendingTransactions := [], difficulty := 0, miningReward := 100
    energyToTokenRate := 10 }

/-- A submit body whose amount is negative, failing transaction
construction. -/
def badBody : SubmitBody :=
  { fromAddress := some "A", toAddress := some "B", amount := -5
    transactionType := .transfer, metadata := [], signature := none }

theorem claim_C7_witness :
    postTransactionSubmit cEx1 badBody 3 =
      ({ status := 400, success := false
         error := some "Transaction amount cannot be negative"
         message := none }, cEx1) ∧
    postMine f0 cEmpty none [] "N" 4 1 =
      some ({ status := 400, success := false
              error := some "Chain is not initialized", message := none }, cEmpty) ∧
    postEnergyTokenize cEx1 (some "P") 0 none 5 =
      ({ status := 400, success := false
         error := some "Energy amount must be positive", message := none }, cEx1) :=
  ⟨claim_C7.1 cEx1 badBody 3 (.validationError "Transaction amount cannot be negative")
     (by decide),
   claim_C7.2.1 f0 cEmpty none [] "N" 4 1 (.miningError "Chain is not initialized")
     (by decide),
   claim_C7.2.2 cEx1 (some "P") 0 none 5 (.validationError "Energy amount must be positive")
     (by decide)⟩

/-- Claim C8: when the budget monitor is in shutdown state, any request is
answered with a 503 budget failure produced by the middleware alone: the
response and the returned node state are independent of the chain, which is
returned untouched, and no chain operation runs. -/
theorem claim_C8 (f : HashInput → String) (c : Chain) (bm : BudgetMonitor)
    (req : Request) (nodeAddr : String) (now fuel : Nat)
    (h : bm.isShutdown = true) :
    handleRequest f ⟨c, some bm⟩ req nodeAddr now fuel =
      some ({ status := 503, success := false
              error := some "Service temporarily unavailable: Budget limit exceeded"
              message := some "Service shutdown: Budget limit exceeded" },
            ⟨c, some bm⟩) := by
  unfold handleRequest
  simp [BudgetMonitor.recordCost, h]

/-- A budget monitor that has breached its daily limit and shut down. -/
def bmShut : BudgetMonitor :=
  { maxDailySpend := 10, maxMonthlySpend := 100, alertThreshold := 80
    dailySpend := 10, monthlySpend := 10, isShutdown := true, alerts := [] }

theorem claim_C8_witness :
    handleRequest f0 ⟨cEx1, some bmShut⟩ .validate "N" 0 1 =
      some ({ status := 503, success := false
              error := some "Service temporarily unavailable: Budget limit exceeded"
              message := some "Service shutdown: Budget limit exceeded" },
            ⟨cEx1, some bmShut⟩) :=
  claim_C8 f0 cEx1 bmShut .validate "N" 0 1 (by decide)

lemma triggerShutdown_shutdown (bm : BudgetMonitor) :
    (bm.triggerShutdown).isShutdown = true := by
  unfold BudgetMonitor.triggerShutdown
  split_ifs with h
  · exact h
  · rfl

lemma sendAlert_isShutdown (bm : BudgetMonitor) (p : String) (pct : Rat) :
    (bm.sendAlert p pct).isShutdown = bm.isShutdown := by
  simp only [BudgetMonitor.sendAlert]
  split_ifs <;> rfl

lemma checkBudgets_pct (bm : BudgetMonitor) :
    (bm.checkBudgets).dailySpend = bm.dailySpend ∧
    (bm.checkBudgets).monthlySpend = bm.monthlySpend ∧
    (bm.checkBudgets).maxDailySpend = bm.maxDailySpend ∧
    (bm.checkBudgets).maxMonthlySpend = bm.maxMonthlySpend := by
  simp only [BudgetMonitor.checkBudgets, BudgetMonitor.triggerShutdown,
    BudgetMonitor.sendAlert]
  split_ifs <;> simp

lemma checkBudgets_shutdown_of_pct {bm : BudgetMonitor}
    (h : bm.dailySpend / bm.maxDailySpend * 100 ≥ 100 ∨
      bm.monthlySpend / bm.maxMonthlySpend * 100 ≥ 100) :
    (bm.checkBudgets).isShutdown = true := by
  simp only [BudgetMonitor.checkBudgets]
  split_ifs <;>
    (try simp [triggerShutdown_shutdown, sendAlert_isShutdown]) <;>
      tauto

lemma checkBudgets_keeps_shutdown {bm : BudgetMonitor} (h : bm.isShutdown = true) :
    (bm.checkBudgets).isShutdown = true := by
  simp only [BudgetMonitor.checkBudgets]
  split_ifs <;> simp [triggerShutdown_shutdown, sendAlert_isShutdown, h]

/-- Claim C9: a successful `recordCost` that brings either spending counter to
100% of its limit leaves the monitor shut down; while shut down, `recordCost`
throws exactly the shutdown message and leaves the whole state (spending
counters included) untouched, `checkBudgets` keeps the flag set, and only
`resetShutdown` clears it. -/
theorem claim_C9 :
    (∀ (bm : BudgetMonitor) (amount : Rat) (service : String) (bm' : BudgetMonitor),
      bm.recordCost amount service = (none, bm') →
      (bm'.dailySpend / bm'.maxDailySpend * 100 ≥ 100 ∨
        bm'.monthlySpend / bm'.maxMonthlySpend * 100 ≥ 100) →
      bm'.isShutdown = true) ∧
    (∀ (bm : BudgetMonitor) (amount : Rat) (service : String),
      bm.isShutdown = true →
      bm.recordCost amount service =
        (some "Service shutdown: Budget limit exceeded", bm)) ∧
    (∀ bm : BudgetMonitor, bm.isShutdown = true →
      (bm.checkBudgets).isShutdown = true) ∧
    (∀ bm : BudgetMonitor, (bm.resetShutdown).isShutdown = false) := by
  refine ⟨?_, ?_, ?_, ?_⟩
  · intro bm amount service bm' hrec hpct
    unfold BudgetMonitor.recordCost at hrec
    split_ifs at hrec with hsd
    · exact absurd (congrArg Prod.fst hrec) (by simp)
    · have hbm' : bm' = BudgetMonitor.checkBudgets
          { bm with dailySpend := bm.dailySpend + amount
                    monthlySpend := bm.monthlySpend + amount } :=
        (congrArg Prod.snd hrec).symm
      subst hbm'
      obtain ⟨hd, hm, hmd, hmm⟩ := checkBudgets_pct
        { bm with dailySpend := bm.dailySpend + amount
                  monthlySpend := bm.monthlySpend + amount }
      rw [hd, hm, hmd, hmm] at hpct
      exact checkBudgets_shutdown_of_pct hpct
  · intro bm amount service h
    unfold BudgetMonitor.recordCost
    rw [if_pos h]
  · intro bm h
    exact checkBudgets_keeps_shutdown h
  · intro bm
    rfl

theorem claim_C9_witness :
    bmAfter.isShutdown = true ∧
    bmAfter.recordCost 1 "api" = (some "Service shutdown: Budget limit exceeded", bmAfter) ∧
    (bmAfter.checkBudgets).isShutdown = true ∧
    (bmAfter.resetShutdown).isShutdown = false :=
  ⟨claim_C9.1 bm0 10 "api" bmAfter
     (by simp [bm0, bmAfter, BudgetMonitor.recordCost, BudgetMonitor.checkBudgets,
       BudgetMonitor.sendAlert, BudgetMonitor.triggerShutdown])
     (Or.inl (by simp [bmAfter])),
   claim_C9.2.1 bmAfter 1 "api" (by decide),
   claim_C9.2.2.1 bmAfter (by decide),
   claim_C9.2.2.2 bmAfter⟩

lemma getSecret_cacheMiss {sm : SecretManager} {env : String → Option String}
    {lk : String → Except String String} {now : Nat} {name : String}
    {d : Option String}
    (hmiss : cacheFreshValue sm now name = none) :
    sm.getSecret env lk now name d = sm.fetchSecret env lk now name d := by
  unfold SecretManager.getSecret
  unfold cacheFreshValue at hmiss
  cases hc : cacheGet sm.cache name with
  | none => rfl
  | some cached =>
    rw [hc] at hmiss
    have h2 : ¬ (now - cached.timestamp < sm.cacheTimeout) := by
      by_contra hlt
      simp [hlt] at hmiss
    simp [h2]

lemma cacheGet_cacheSet_self (cache : List (String × CacheEntry)) (name : String)
    (e : CacheEntry) : cacheGet (cacheSet cache name e) name = some e := by
  induction cache with
  | nil => simp [cacheSet, cacheGet, List.find?_cons]
  | cons kv rest ih =>
    unfold cacheSet
    split_ifs with h
    · simp [cacheGet, List.find?_cons]
    · simpa [cacheGet, List.find?_cons, h] using ih

lemma fetchOutcome_ok (env : String → Option String) (d : Option String)
    {sm : SecretManager} {lk : String → Except String String} {name : String}
    (hok : sm.provider = .env ∨ ∃ s, lk name = .ok s) :
    ∃ sv, sm.fetchOutcome env lk name d = .ok sv := by
  unfold SecretManager.fetchOutcome
  cases hp : sm.provider with
  | env => exact ⟨_, rfl⟩
  | gcp =>
    rcases hok with hp2 | ⟨s, hs⟩
    · rw [hp] at hp2; cases hp2
    · exact ⟨some s, by rw [hs]; rfl⟩
  | aws =>
    rcases hok with hp2 | ⟨s, hs⟩
    · rw [hp] at hp2; cases hp2
    · exact ⟨some s, by rw [hs]; rfl⟩
  | azure =>
    rcases hok with hp2 | ⟨s, hs⟩
    · rw [hp] at hp2; cases hp2
    · exact ⟨some s, by rw [hs]; rfl⟩

lemma fetchSecret_some_shape {sm : SecretManager} {env : String → Option String}
    {lk : String → Except String String} {now : Nat} {name : String}
    {d : Option String} {v : String} {sm' : SecretManager}
    (hok : sm.provider = .env ∨ ∃ s, lk name = .ok s)
    (h : sm.fetchSecret env lk now name d = (some v, sm'))
    (hv : v ≠ "") :
    sm' = { sm with cache := cacheSet sm.cache name ⟨v, now⟩ } := by
  obtain ⟨sv, hfo⟩ := fetchOutcome_ok env d hok
  unfold SecretManager.fetchSecret at h
  rw [hfo] at h
  cases sv with
  | none => simp at h
  | some w =>
    have h' : (if w = "" then ((some w : Option String), sm)
        else (some w, { sm with cache := cacheSet sm.cache name ⟨w, now⟩ }))
          = (some v, sm') := h
    by_cases hw : w = ""
    · rw [if_pos hw] at h'
      have h1 := congrArg Prod.fst h'
      simp at h1
      exact absurd (h1 ▸ hw) hv
    · rw [if_neg hw] at h'
      have h1 := congrArg Prod.fst h'
      have h2 := congrArg Prod.snd h'
      simp at h1 h2
      subst h1
      exact h2.symm

/-- Claim C10 (amended): a provider-lookup failure is never propagated —
`getSecret` returns the caller's default instead; on the `env` provider it
returns the environment variable when it is set to a non-empty string and
otherwise the default; and a non-empty value fetched successfully is cached
and served unchanged by any repeated call within the cache window counted
from the time it was stored. -/
theorem claim_C10 :
    (∀ (sm : SecretManager) (env : String → Option String)
        (lk : String → Except String String) (now : Nat) (name : String)
        (d : Option String) (msg : String),
      cacheFreshValue sm now name = none → sm.provider ≠ .env →
      lk name = .error msg →
      sm.getSecret env lk now name d = (d, sm)) ∧
    (∀ (sm : SecretManager) (env : String → Option String)
        (lk : String → Except String String) (now : Nat) (name : String)
        (d : Option String),
      cacheFreshValue sm now name = none → sm.provider = .env →
      (sm.getSecret env lk now name d).1 =
        (match env name with
         | some v => if v = "" then d else some v
         | none => d)) ∧
    (∀ (sm : SecretManager) (env : String → Option String)
        (lk : String → Except String String) (now : Nat) (name : String)
        (d : Option String) (v : String) (sm' : SecretManager),
      cacheFreshValue sm now name = none →
      (sm.provider = .env ∨ ∃ s, lk name = .ok s) →
      sm.getSecret env lk now name d = (some v, sm') → v ≠ "" →
      ∀ (env2 : String → Option String) (lk2 : String → Except String String)
        (now2 : Nat) (d2 : Option String),
        now2 - now < sm.cacheTimeout →
        sm'.getSecret env2 lk2 now2 name d2 = (some v, sm')) := by
  refine ⟨?_, ?_, ?_⟩
  · intro sm env lk now name d msg hmiss hne hlk
    rw [getSecret_cacheMiss hmiss]
    have hfo : sm.fetchOutcome env lk name d = .error msg := by
      unfold SecretManager.fetchOutcome
      cases hp : sm.provider with
      | env => exact absurd hp hne
      | gcp => rw [hlk]; rfl
      | aws => rw [hlk]; rfl
      | azure => rw [hlk]; rfl
    unfold SecretManager.fetchSecret
    rw [hfo]
  · intro sm env lk now name d hmiss hp
    rw [getSecret_cacheMiss hmiss]
    have hfo : sm.fetchOutcome env lk name d =
        .ok (match env name with
             | some w => if w = "" then d else some w
             | none => d) := by
      unfold SecretManager.fetchOutcome
      rw [hp]
    unfold SecretManager.fetchSecret
    rw [hfo]
    cases he : env name with
    | none =>
      cases d with
      | none => simp
      | some u => by_cases hu : u = "" <;> simp [hu]
    | some w =>
      by_cases hw : w = ""
      · cases d with
        | none => simp [hw]
        | some u => by_cases hu : u = "" <;> simp [hw, hu]
      · simp [hw]
  · intro sm env lk now name d v sm' hmiss hok hcall hv env2 lk2 now2 d2 hwin
    have hfetch : sm.fetchSecret env lk now name d = (some v, sm') := by
      rw [← getSecret_cacheMiss hmiss]
      exact hcall
    have hsm' := fetchSecret_some_shape hok hfetch hv
    subst hsm'
    unfold SecretManager.getSecret
    rw [show cacheGet (cacheSet sm.cache name ⟨v, now⟩) name = some ⟨v, now⟩ from
      cacheGet_cacheSet_self sm.cache name ⟨v, now⟩]
    simp [hwin]

theorem claim_C10_counterexample :
    env0 "X" = some "" ∧
    (smEnv.getSecret env0 lkFail 0 "X" (some "d")).1 = some "d" ∧
    some "d" ≠ (some "" : Option String) := by
  decide

theorem claim_C10_witness :
    smGcp.getSecret envNone lkFail 0 "K" (some "d") = (some "d", smGcp) ∧
    (smEnv.getSecret env1 lkFail 0 "Y" none).1 = some "val" ∧
    smEnvCached.getSecret envNone lkFail 1000 "Y" none = (some "val", smEnvCached) :=
  ⟨claim_C10.1 smGcp envNone lkFail 0 "K" (some "d") "provider unavailable"
     (by decide) (by decide) (by decide),
   (claim_C10.2.1 smEnv env1 lkFail 0 "Y" none (by decide) (by decide)).trans
     (by decide),
   claim_C10.2.2 smEnv env1 lkFail 0 "Y" none "val" smEnvCached
     (by decide) (Or.inl (by decide)) (by decide) (by decide)
     envNone lkFail 1000 none (by decide)⟩

end EnergyAI
